import Mathlib

/-!
Verification of the reconciliation engine of `src/agents/data_analyst.py`.

We shallowly embed the pure decision logic of the `DataAnalystAgent` class:
the validity predicate `_is_missing_or_incorrect`, the multi-value combiner
`_combine_multiple_values`, the generative fallback `_openai_fill_field`
(with the generative service modelled as an oracle response, `Option String`,
where `Option.none` is a service failure), the industry classifier
`_openai_select_industry`, and the composition root `analyze_company_data`.

Python dictionaries are embedded as association lists with first-match lookup
(`List.lookup`); dictionary assignment is `dinsert`, which updates an existing
key in place or appends a fresh one, matching Python insertion-order
semantics.  Python values occurring in the records are embedded by `Val`:
a string, a list of strings (the address/phone shapes produced by the
research agents), Python `None`, or any other non-string object (which the
validity predicate passes through unchanged).
-/

/-! ### Python string primitives

The Lean core string functions (`String.trim`, `String.splitOn`, ...) are
implemented with byte-position iterators that do not reduce inside the kernel,
so the Python string methods used by the source are embedded here as plain
structural recursion over `List Char`. -/

/-- Python `str.strip()`: drop leading and trailing whitespace. -/
def pystrip (s : String) : String :=
  String.mk (((s.data.dropWhile Char.isWhitespace).reverse.dropWhile
    Char.isWhitespace).reverse)

/-- Python `str.upper()` (ASCII, which is all the source needs). -/
def pyupper (s : String) : String :=
  String.mk (s.data.map Char.toUpper)

/-- Python `str.lower()` (ASCII, which is all the source needs). -/
def pylower (s : String) : String :=
  String.mk (s.data.map Char.toLower)

/-- Python `s.replace(a, b)` for one-character patterns, which is the only way
the source uses `replace`. -/
def replaceChar (a b : Char) (s : String) : String :=
  String.mk (s.data.map (fun c => if c = a then b else c))

/-- Helper for `splitChar`: accumulate the current piece (reversed). -/
def splitCharAux (sep : Char) : List Char → List Char → List (List Char)
  | [], cur => [cur.reverse]
  | c :: t, cur =>
      if c = sep then cur.reverse :: splitCharAux sep t []
      else splitCharAux sep t (c :: cur)

/-- Python `s.split(sep)` for a one-character separator: `""` yields `[""]`,
and adjacent separators yield empty pieces, as in Python. -/
def splitChar (sep : Char) (s : String) : List String :=
  (splitCharAux sep s.data []).map String.mk

/-- Python `sep.join(parts)`. -/
def pyjoin (sep : String) : List String → String
  | [] => ""
  | [x] => x
  | x :: xs => x ++ sep ++ pyjoin sep xs

/-- Python `s.startswith(p)`. -/
def pystartswith (s p : String) : Bool :=
  p.data.isPrefixOf s.data

/-- A Python value as it occurs in a raw source record: a string, a list of
strings, `None`, or some other (non-string, non-list, non-None) object. -/
inductive Val where
  | str (s : String)
  | vlist (l : List String)
  | none
  | other
deriving DecidableEq, Repr

abbrev Record := List (String × Val)

/-- First-match association-list lookup: Python `r[k]` / `k in r` for a
dictionary embedded as a list of bindings. -/
def alookup {α β : Type} [DecidableEq α] : List (α × β) → α → Option β
  | [], _ => Option.none
  | (a, b) :: t, k => if k = a then some b else alookup t k

/-- Keys of a record, in order (Python `dict.keys()`). -/
def keys (r : Record) : List String := r.map Prod.fst

/-- Python `data.get(field, "N/A")`: the stored value, or the string `"N/A"`
when the key is absent. -/
def dget (r : Record) (k : String) : Val :=
  match alookup r k with
  | some v => v
  | Option.none => Val.str "N/A"

/-- Python dictionary assignment `r[k] = v`: overwrite the value at `k` if the
key is present (keeping its position), otherwise append the new binding. -/
def dinsert (r : Record) (k : String) (v : Val) : Record :=
  if (alookup r k).isSome then
    r.map (fun p => if p.1 = k then (k, v) else p)
  else
    r ++ [(k, v)]

/-- Contiguous-sublist test on character lists: Python `needle in hay` for
strings.  The empty needle is contained in every haystack, as in Python. -/
def hasSub (needle : List Char) : List Char → Bool
  | [] => needle.isEmpty
  | c :: t => needle.isPrefixOf (c :: t) || hasSub needle t

/-- Python substring containment `needle in hay`. -/
def strContains (hay needle : String) : Bool :=
  hasSub needle.data hay.data

/-- The `missing_phrases` list of `_is_missing_or_incorrect` (note that it
contains the empty string). -/
def missing_phrases : List String :=
  ["N/A", "NOT FOUND", "NO INFORMATION FOUND", "UNKNOWN", ""]

/-- `DataAnalystAgent._is_missing_or_incorrect(value, field)`:
`None` is missing; a string is checked against the sentinel phrases by
substring containment of its trimmed upper-cased form, then against the
field-specific rules for `Email`, `Phone` and `Website`; any other value
passes through as not missing. -/
def is_missing_or_incorrect (value : Val) (field : String) : Bool :=
  match value with
  | Val.none => true
  | Val.str s =>
    let value_clean := pyupper (pystrip s)
    if missing_phrases.any (fun phrase => strContains value_clean phrase)
        || strContains value_clean "NO INFORMATION FOUND" then true
    else if field = "Email" && (!strContains s "@" || !strContains s ".") then true
    else if field = "Phone" && !(s.data.any Char.isDigit) then true
    else if field = "Website" && (!pystartswith s "http" || !strContains s ".") then true
    else false
  | _ => false

/-- The `split_values` helper of `_combine_multiple_values`: a list keeps its
truthy (non-empty) string members, each stripped; a scalar string is split on
newline, comma and semicolon (all normalised to semicolon first), keeping
non-empty stripped parts; anything else yields the empty list. -/
def split_values (val : Val) : List String :=
  match val with
  | Val.vlist l => (l.filter (fun v => v ≠ "")).map pystrip
  | Val.str s =>
      ((splitChar ';' (replaceChar ',' ';' (replaceChar '\n' ';' s))).map pystrip).filter
        (fun p => p ≠ "")
  | _ => []

/-- `DataAnalystAgent._combine_multiple_values(g_val, l_val)`: split both
inputs, concatenate google parts then linkedin parts, deduplicate keeping the
first occurrence, join with `"; "`; `None` when the combined list is empty. -/
def combine_multiple_values (g_val l_val : Val) : Option String :=
  let g_list := split_values g_val
  let l_list := split_values l_val
  let combined := (g_list ++ l_list).foldl
    (fun acc v => if v ∈ acc then acc else acc ++ [v]) []
  if combined.isEmpty then Option.none else some (pyjoin "; " combined)

/-- The result-shaping part of `DataAnalystAgent._openai_fill_field`: the
generative service response is an oracle value (`Option.none` models any
exception from the API call).  On failure return `"Unknown"`; on success strip
the response and return it, or `"Unknown"` when the stripped response is
empty. -/
def openai_fill_field (resp : Option String) : String :=
  match resp with
  | Option.none => "Unknown"
  | some content =>
      let value := pystrip content
      if value = "" then "Unknown" else value

/-- `INDUSTRY_TYPES` from `src/agents/data_analyst.py`. -/
def INDUSTRY_TYPES : List String :=
  ["Business and Marketing",
   "Automotive",
   "Finance and Banking and Insurance",
   "Chemical",
   "Electronics and Home Appliance",
   "Energy and Environment",
   "Tourism and Hotel and Catering",
   "Gaming and Video Games",
   "Medical and Healthcare",
   "Government and NPO",
   "Legal and Contracts",
   "Literary and Art and History",
   "Software and IT",
   "Telecommunications",
   "Ecommerce and Shipping",
   "Technical and Engineering",
   "Certificates",
   "Education and E-learning",
   "Patent and Intellectual Property",
   "Media and Entertainment",
   "General"]

/-- The result-shaping part of `DataAnalystAgent._openai_select_industry`:
on service failure return `"General"`; otherwise strip the response and return
it when it is an exact member of `INDUSTRY_TYPES`, else `"General"`. -/
def openai_select_industry (resp : Option String) : String :=
  match resp with
  | Option.none => "General"
  | some content =>
      let value := pystrip content
      if value ∈ INDUSTRY_TYPES then value else "General"

/-- The generative service behaviour for one run of the engine: a response per
field name for `_openai_fill_field`, and one response for
`_openai_select_industry`.  `Option.none` models a raised exception. -/
structure Oracle where
  fill : String → Option String
  industry : Option String

/-- The value `analyze_company_data` stores for one non-country field: the
body of the `for field in all_fields` loop, factored out of the loop.  For
`address`/`phone` (case-insensitive) the combined value is used when truthy
and not missing, else the generative fill; otherwise the google value wins
when not missing, then the linkedin value, then the generative fill. -/
def fuseValue (o : Oracle) (google_data linkedin_data : Record) (field : String) : Val :=
  let g_val := dget google_data field
  let l_val := dget linkedin_data field
  if pylower field ∈ ["address", "phone"] then
    match combine_multiple_values g_val l_val with
    | some combined =>
        if combined ≠ "" ∧ is_missing_or_incorrect (Val.str combined) field = false then
          Val.str combined
        else
          Val.str (openai_fill_field (o.fill field))
    | Option.none => Val.str (openai_fill_field (o.fill field))
  else
    if is_missing_or_incorrect g_val field = false then g_val
    else if is_missing_or_incorrect l_val field = false then l_val
    else Val.str (openai_fill_field (o.fill field))

/-- One iteration of the main loop of `analyze_company_data`: skip fields
whose lower-cased name is `country`, otherwise store the fused value. -/
def fuseStep (o : Oracle) (google_data linkedin_data : Record) (res : Record)
    (field : String) : Record :=
  if pylower field = "country" then res
  else dinsert res field (fuseValue o google_data linkedin_data field)

/-- `DataAnalystAgent.analyze_company_data(google_data, linkedin_data)`:
fold the fusion step over the union of the two key sets, then always set
`country` from the generative fill and `industry_type` from the industry
classifier. -/
def analyze_company_data (o : Oracle) (google_data linkedin_data : Record) : Record :=
  let all_fields := (keys google_data ++ keys linkedin_data).dedup
  let result := all_fields.foldl (fuseStep o google_data linkedin_data) []
  let result := dinsert result "country" (Val.str (openai_fill_field (o.fill "country")))
  dinsert result "industry_type" (Val.str (openai_select_industry o.industry))

/-- First-seen-order deduplication, written as the claim's reference
definition describes it (drop a part already seen, keep the first
occurrence). -/
def dedupFirstAux (seen : List String) : List String → List String
  | [] => []
  | x :: xs =>
      if x ∈ seen then dedupFirstAux seen xs
      else x :: dedupFirstAux (x :: seen) xs

def dedupFirst (l : List String) : List String := dedupFirstAux [] l

/-! ### The claim C7 reference combiner -/

/-- Modelled from the claim's reference definition of the Multi-Value
Combiner: each input is normalised into an ordered list of trimmed non-empty
strings, so a list input has its string members trimmed and the parts that
are empty after trimming dropped. -/
def split_values_spec (val : Val) : List String :=
  match val with
  | Val.vlist l => (l.map pystrip).filter (fun v => v ≠ "")
  | Val.str s =>
      ((splitChar ';' (replaceChar ',' ';' (replaceChar '\n' ';' s))).map pystrip).filter
        (fun p => p ≠ "")
  | _ => []

/-- Modelled from the claim's reference definition: concatenate the two
normalised part lists, deduplicate in first-seen order, join with `"; "`,
and return `None` exactly when the part list is empty. -/
def combine_spec (a b : Val) : Option String :=
  let parts := dedupFirst (split_values_spec a ++ split_values_spec b)
  if parts.isEmpty then Option.none else some (pyjoin "; " parts)

/-- A value none of whose list members is whitespace-only (the inputs on
which the source combiner and the reference combiner agree). -/
def noBlankMembers (v : Val) : Bool :=
  match v with
  | Val.vlist l => l.all (fun s => s == "" || pystrip s != "")
  | _ => true

/-! ### A heap model for the mutation claim

`analyze_company_data` receives its two input dictionaries by reference; the
only in-place dictionary mutations in its call graph are the writes to the
fresh `data.copy()` made by `stringify_addresses` inside `_openai_fill_field`
and the writes to the freshly created `result` dictionary.  To state that the
inputs are never mutated we re-run the engine over an explicit heap of
dictionary objects: `alloc` models creating a new dictionary, `write` models
in-place assignment to an existing one. -/

abbrev Ref := Nat

structure Store where
  heap : List (Ref × Record)
  next : Ref

/-- Dereference a dictionary (unallocated references read as empty). -/
def Store.read (st : Store) (r : Ref) : Record :=
  match alookup st.heap r with
  | some d => d
  | Option.none => []

/-- Allocate a fresh dictionary object holding `d`. -/
def Store.alloc (st : Store) (d : Record) : Store × Ref :=
  ({ heap := st.heap ++ [(st.next, d)], next := st.next + 1 }, st.next)

/-- Overwrite the dictionary object at `r` in place. -/
def Store.write (st : Store) (r : Ref) (d : Record) : Store :=
  { heap := st.heap.map (fun p => if p.1 = r then (r, d) else p), next := st.next }

/-- Every allocated address is below the allocation counter. -/
def Store.WF (st : Store) : Prop :=
  ∀ p ∈ st.heap, p.1 < st.next

instance (st : Store) : Decidable st.WF := by
  unfold Store.WF
  infer_instance

/-- `stringify_addresses` from `_openai_fill_field`: when the dictionary holds
a list-valued `Address`, take a copy (`data.copy()`) and overwrite `Address`
in the copy with the `"; "`-joined string; otherwise hand back the original
reference unchanged. -/
def stringify_addresses (st : Store) (r : Ref) : Store × Ref :=
  let data := st.read r
  match alookup data "Address" with
  | some (Val.vlist l) =>
      let alloced := st.alloc data
      let st2 := alloced.1.write alloced.2 (dinsert data "Address" (Val.str (pyjoin "; " l)))
      (st2, alloced.2)
  | _ => (st, r)

/-- The stateful shell of `_openai_fill_field`: normalise both records for
the prompt (`stringify_addresses` on each), then produce the service-derived
value. -/
def openai_fill_field_st (resp : Option String) (st : Store) (g l : Ref) :
    Store × String :=
  let st1 := (stringify_addresses st g).1
  let st2 := (stringify_addresses st1 l).1
  (st2, openai_fill_field resp)

/-- The loop body of `analyze_company_data`, run against the heap: identical
decision structure to `fuseValue`, but the generative branches thread the
store through `openai_fill_field_st`. -/
def fuseValue_st (o : Oracle) (g l : Ref) (st : Store) (field : String) :
    Store × Val :=
  let g_val := dget (st.read g) field
  let l_val := dget (st.read l) field
  if pylower field ∈ ["address", "phone"] then
    match combine_multiple_values g_val l_val with
    | some combined =>
        if combined ≠ "" ∧ is_missing_or_incorrect (Val.str combined) field = false then
          (st, Val.str combined)
        else
          let fv := openai_fill_field_st (o.fill field) st g l
          (fv.1, Val.str fv.2)
    | Option.none =>
        let fv := openai_fill_field_st (o.fill field) st g l
        (fv.1, Val.str fv.2)
  else
    if is_missing_or_incorrect g_val field = false then (st, g_val)
    else if is_missing_or_incorrect l_val field = false then (st, l_val)
    else
      let fv := openai_fill_field_st (o.fill field) st g l
      (fv.1, Val.str fv.2)

def fuseStep_st (o : Oracle) (g l : Ref) (acc : Store × Record) (field : String) :
    Store × Record :=
  if pylower field = "country" then acc
  else
    let sv := fuseValue_st o g l acc.1 field
    (sv.1, dinsert acc.2 field sv.2)

/-- `analyze_company_data` over the heap: the result dictionary is built as a
fresh record, the inputs are only ever read. -/
def analyze_company_data_st (o : Oracle) (st : Store) (g l : Ref) :
    Store × Record :=
  let all_fields := (keys (st.read g) ++ keys (st.read l)).dedup
  let loop := all_fields.foldl (fuseStep_st o g l) (st, [])
  let cfill := openai_fill_field_st (o.fill "country") loop.1 g l
  let result := dinsert loop.2 "country" (Val.str cfill.2)
  (cfill.1, dinsert result "industry_type" (Val.str (openai_select_industry o.industry)))

/-! ### Concrete fixtures used by the closed theorems -/

/-- The generative service failing on every call. -/
def oracleFail : Oracle := { fill := fun _ => Option.none, industry := Option.none }

/-- A two-dictionary heap: object 0 is a google-style record with a
list-valued `Address`, object 1 a linkedin-style record. -/
def store0 : Store :=
  { heap :=
      [(0, [("Address", Val.vlist ["1 A St", "2 B St"]), ("Phone", Val.str "123")]),
       (1, [("Address", Val.str "9 Z St"), ("Email", Val.str "a@b.com")])],
    next := 2 }

/-! ### Helper lemmas about the dictionary embedding -/

theorem lookup_map_update {α β : Type} [DecidableEq α] (r : List (α × β)) (k : α)
    (v : β) (k' : α) :
    alookup (r.map (fun p => if p.1 = k then (k, v) else p)) k' =
      if k' = k then (alookup r k).map (fun _ => v) else alookup r k' := by
  induction r with
  | nil => by_cases hk : k' = k <;> simp [alookup, hk]
  | cons p t ih =>
    obtain ⟨a, b⟩ := p
    simp only [List.map_cons]
    by_cases hak : a = k
    · rw [if_pos hak]
      subst hak
      by_cases hk : k' = a <;> simp [alookup, hk, ih]
    · rw [if_neg hak]
      by_cases hk : k' = a
      · subst hk
        simp [alookup, hak, Ne.symm hak]
      · simp [alookup, hak, hk, ih, Ne.symm hak]

theorem lookup_append_single {α β : Type} [DecidableEq α] (r : List (α × β)) (k : α)
    (v : β) (k' : α) :
    alookup (r ++ [(k, v)]) k' =
      match alookup r k' with
      | some w => some w
      | Option.none => if k' = k then some v else Option.none := by
  induction r with
  | nil => by_cases hk : k' = k <;> simp [alookup, hk]
  | cons p t ih =>
    obtain ⟨a, b⟩ := p
    by_cases hk : k' = a
    · subst hk
      simp [alookup]
    · simp [alookup, hk, ih]

theorem dinsert_lookup (r : Record) (k : String) (v : Val) (k' : String) :
    alookup (dinsert r k v) k' = if k' = k then some v else alookup r k' := by
  unfold dinsert
  by_cases h : (alookup r k).isSome
  · obtain ⟨w, hw⟩ := Option.isSome_iff_exists.mp h
    rw [if_pos h, lookup_map_update]
    by_cases hk : k' = k <;> simp [hk, hw]
  · rw [if_neg h, lookup_append_single]
    have hnone : alookup r k = Option.none := Option.not_isSome_iff_eq_none.mp h
    by_cases hk : k' = k
    · subst hk
      simp [hnone]
    · cases hlk : alookup r k' <;> simp [hk]

theorem lookup_isSome_iff (r : Record) (k : String) :
    (alookup r k).isSome = true ↔ k ∈ keys r := by
  induction r with
  | nil => simp [alookup, keys]
  | cons p t ih =>
    obtain ⟨a, b⟩ := p
    by_cases h : k = a <;> simp [alookup, keys, h, ih]

/-! ### Helper lemmas about the validity predicate and the oracles -/

theorem hasSub_nil (l : List Char) : hasSub [] l = true := by
  cases l <;> simp [hasSub, List.isPrefixOf]

/-- The empty string is a Python substring of every string. -/
theorem strContains_empty (s : String) : strContains s "" = true :=
  hasSub_nil s.data

/-- Because `missing_phrases` contains `""` and the check is substring
containment, every string value is classified missing/incorrect, whatever the
field. -/
theorem is_missing_str (s f : String) : is_missing_or_incorrect (Val.str s) f = true := by
  have h : missing_phrases.any
      (fun phrase => strContains (pyupper (pystrip s)) phrase) = true := by
    apply List.any_eq_true.mpr
    refine ⟨"", ?_, strContains_empty _⟩
    simp [missing_phrases]
  simp [is_missing_or_incorrect, h]

theorem openai_fill_field_ne_empty (r : Option String) : openai_fill_field r ≠ "" := by
  cases r with
  | none => simp [openai_fill_field]
  | some c =>
    simp only [openai_fill_field]
    by_cases h : pystrip c = "" <;> simp [h]

theorem openai_select_industry_mem (r : Option String) :
    openai_select_industry r ∈ INDUSTRY_TYPES := by
  cases r with
  | none =>
    show "General" ∈ INDUSTRY_TYPES
    decide
  | some c =>
    simp only [openai_select_industry]
    by_cases h : pystrip c ∈ INDUSTRY_TYPES
    · rw [if_pos h]
      exact h
    · rw [if_neg h]
      decide

theorem openai_select_industry_ne_empty (r : Option String) :
    openai_select_industry r ≠ "" := by
  intro h
  have hmem := openai_select_industry_mem r
  rw [h] at hmem
  revert hmem
  decide

/-! ### Characterisation of the engine's output -/

theorem foldl_fuseStep_lookup (o : Oracle) (a b : Record) (fields : List String)
    (res : Record) (k : String) :
    alookup (fields.foldl (fuseStep o a b) res) k =
      if k ∈ fields ∧ pylower k ≠ "country" then some (fuseValue o a b k)
      else alookup res k := by
  induction fields generalizing res with
  | nil => simp
  | cons f t ih =>
    simp only [List.foldl_cons]
    rw [ih]
    by_cases hkt : k ∈ t ∧ pylower k ≠ "country"
    · rw [if_pos hkt, if_pos ⟨List.mem_cons_of_mem f hkt.1, hkt.2⟩]
    · rw [if_neg hkt]
      unfold fuseStep
      by_cases hf : pylower f = "country"
      · rw [if_pos hf]
        have hnone : ¬(k ∈ f :: t ∧ pylower k ≠ "country") := by
          intro hcon
          rcases hcon with ⟨hmem, hnc⟩
          rcases List.mem_cons.mp hmem with hkf | hkt2
          · exact hnc (hkf ▸ hf)
          · exact hkt ⟨hkt2, hnc⟩
        rw [if_neg hnone]
      · rw [if_neg hf, dinsert_lookup]
        by_cases hkf : k = f
        · subst hkf
          rw [if_pos rfl, if_pos ⟨List.mem_cons_self k t, hf⟩]
        · rw [if_neg hkf]
          have hnone : ¬(k ∈ f :: t ∧ pylower k ≠ "country") := by
            intro hcon
            rcases hcon with ⟨hmem, hnc⟩
            rcases List.mem_cons.mp hmem with h1 | h2
            · exact hkf h1
            · exact hkt ⟨h2, hnc⟩
          rw [if_neg hnone]

/-- Full characterisation of a lookup into the fused record. -/
theorem analyze_lookup (o : Oracle) (a b : Record) (k : String) :
    alookup (analyze_company_data o a b) k =
      if k = "industry_type" then some (Val.str (openai_select_industry o.industry))
      else if k = "country" then some (Val.str (openai_fill_field (o.fill "country")))
      else if (k ∈ keys a ∨ k ∈ keys b) ∧ pylower k ≠ "country" then
        some (fuseValue o a b k)
      else Option.none := by
  unfold analyze_company_data
  rw [dinsert_lookup, dinsert_lookup, foldl_fuseStep_lookup]
  simp only [List.mem_dedup, List.mem_append, alookup]

/-- Membership in the fused record's key set. -/
theorem analyze_keys_mem (o : Oracle) (a b : Record) (k : String) :
    k ∈ keys (analyze_company_data o a b) ↔
      ((k ∈ keys a ∨ k ∈ keys b) ∧ pylower k ≠ "country") ∨
        k = "country" ∨ k = "industry_type" := by
  rw [← lookup_isSome_iff, analyze_lookup]
  by_cases h1 : k = "industry_type" <;> by_cases h2 : k = "country" <;>
    by_cases h3 : (k ∈ keys a ∨ k ∈ keys b) ∧ pylower k ≠ "country" <;>
      simp [h1, h2, h3]

/-- Any string stored by the fusion step for a single field is non-empty:
valid source strings cannot occur (every string is classified missing), the
combined multi-value branch requires validity as well, and the generative
fill is never empty. -/
theorem fuseValue_str_ne_empty (o : Oracle) (a b : Record) (k s : String)
    (h : fuseValue o a b k = Val.str s) : s ≠ "" := by
  unfold fuseValue at h
  by_cases hmv : pylower k ∈ ["address", "phone"]
  · rw [if_pos hmv] at h
    cases hc : combine_multiple_values (dget a k) (dget b k) with
    | none =>
      rw [hc] at h
      have h2 : Val.str (openai_fill_field (o.fill k)) = Val.str s := h
      injection h2 with h'
      rw [← h']
      exact openai_fill_field_ne_empty _
    | some c =>
      rw [hc] at h
      have h2 : (if c ≠ "" ∧ is_missing_or_incorrect (Val.str c) k = false then Val.str c
          else Val.str (openai_fill_field (o.fill k))) = Val.str s := h
      have hfalse : ¬(c ≠ "" ∧ is_missing_or_incorrect (Val.str c) k = false) := by
        intro hcon
        rw [is_missing_str] at hcon
        exact absurd hcon.2 (by simp)
      rw [if_neg hfalse] at h2
      injection h2 with h'
      rw [← h']
      exact openai_fill_field_ne_empty _
  · rw [if_neg hmv] at h
    by_cases hg : is_missing_or_incorrect (dget a k) k = false
    · rw [if_pos hg] at h
      rw [h, is_missing_str] at hg
      exact absurd hg (by simp)
    · rw [if_neg hg] at h
      by_cases hl : is_missing_or_incorrect (dget b k) k = false
      · rw [if_pos hl] at h
        rw [h, is_missing_str] at hl
        exact absurd hl (by simp)
      · rw [if_neg hl] at h
        injection h with h'
        rw [← h']
        exact openai_fill_field_ne_empty _

/-! ### The combiner's deduplication -/

theorem dedup_foldl_mem_mono (l : List String) (acc : List String) (x : String)
    (h : x ∈ acc) :
    x ∈ l.foldl (fun acc v => if v ∈ acc then acc else acc ++ [v]) acc := by
  induction l generalizing acc with
  | nil => simpa using h
  | cons y ys ih =>
    simp only [List.foldl_cons]
    by_cases hy : y ∈ acc
    · rw [if_pos hy]
      exact ih acc h
    · rw [if_neg hy]
      exact ih (acc ++ [y]) (List.mem_append_left _ h)

theorem dedup_foldl_mem (l : List String) (acc : List String) (x : String) (h : x ∈ l) :
    x ∈ l.foldl (fun acc v => if v ∈ acc then acc else acc ++ [v]) acc := by
  induction l generalizing acc with
  | nil => simp at h
  | cons y ys ih =>
    simp only [List.foldl_cons]
    rcases List.mem_cons.mp h with hxy | hxs
    · subst hxy
      by_cases hy : x ∈ acc
      · rw [if_pos hy]
        exact dedup_foldl_mem_mono ys acc x hy
      · rw [if_neg hy]
        exact dedup_foldl_mem_mono ys (acc ++ [x]) x (List.mem_append_right _ (by simp))
    · by_cases hy : y ∈ acc
      · rw [if_pos hy]
        exact ih acc hxs
      · rw [if_neg hy]
        exact ih (acc ++ [y]) hxs

theorem dedup_foldl_noop (l : List String) (acc : List String) (h : ∀ x ∈ l, x ∈ acc) :
    l.foldl (fun acc v => if v ∈ acc then acc else acc ++ [v]) acc = acc := by
  induction l with
  | nil => simp
  | cons y ys ih =>
    simp only [List.foldl_cons]
    rw [if_pos (h y (by simp))]
    exact ih (fun x hx => h x (List.mem_cons_of_mem y hx))

theorem dedup_foldl_eq_aux (l : List String) : ∀ acc seen : List String,
    (∀ x, x ∈ seen ↔ x ∈ acc) →
    l.foldl (fun acc v => if v ∈ acc then acc else acc ++ [v]) acc
      = acc ++ dedupFirstAux seen l := by
  induction l with
  | nil =>
    intro acc seen hiff
    simp [dedupFirstAux]
  | cons x xs ih =>
    intro acc seen hiff
    simp only [List.foldl_cons, dedupFirstAux]
    by_cases hx : x ∈ acc
    · rw [if_pos hx, if_pos ((hiff x).mpr hx)]
      exact ih acc seen hiff
    · rw [if_neg hx, if_neg (fun hc => hx ((hiff x).mp hc))]
      rw [ih (acc ++ [x]) (x :: seen) ?_]
      · simp
      · intro y
        simp only [List.mem_cons, List.mem_append, List.mem_singleton,
          List.not_mem_nil, or_false, hiff y]
        tauto

theorem dedup_foldl_eq (l : List String) :
    l.foldl (fun acc v => if v ∈ acc then acc else acc ++ [v]) [] = dedupFirst l := by
  have h := dedup_foldl_eq_aux l [] [] (fun x => by simp)
  simpa [dedupFirst] using h

theorem split_values_eq_spec (v : Val) (h : noBlankMembers v = true) :
    split_values v = split_values_spec v := by
  cases v with
  | str s => rfl
  | none => rfl
  | other => rfl
  | vlist l =>
    simp only [split_values, split_values_spec]
    simp only [noBlankMembers, List.all_eq_true] at h
    induction l with
    | nil => rfl
    | cons s t ih =>
      have hs := h s (by simp)
      have ht : ∀ x ∈ t, (x == "" || pystrip x != "") = true :=
        fun x hx => h x (List.mem_cons_of_mem s hx)
      by_cases hse : s = ""
      · subst hse
        have hps : pystrip "" = "" := rfl
        simp only [List.filter_cons, List.map_cons, hps]
        simp
        simpa using ih ht
      · have hps : pystrip s ≠ "" := by
          rcases Bool.or_eq_true_iff.mp hs with h1 | h1
          · exact absurd (by simpa using h1) hse
          · simpa using h1
        simp only [List.filter_cons, List.map_cons]
        simp [hse, hps]
        simpa using ih ht

/-! ### Frame lemmas for the heap model -/

theorem Store.read_alloc_of_lt (st : Store) (d : Record) (r : Ref) (h : r < st.next) :
    (st.alloc d).1.read r = st.read r := by
  unfold Store.alloc Store.read
  simp only
  rw [lookup_append_single]
  cases hl : alookup st.heap r with
  | none => simp [Nat.ne_of_lt h]
  | some w => simp

theorem Store.read_write_of_ne (st : Store) (w : Ref) (d : Record) (r : Ref)
    (h : r ≠ w) :
    (st.write w d).read r = st.read r := by
  unfold Store.write Store.read
  simp only
  rw [lookup_map_update, if_neg h]

theorem stringify_next_le (st : Store) (x : Ref) :
    st.next ≤ (stringify_addresses st x).1.next := by
  simp only [stringify_addresses]
  split
  · exact Nat.le_succ _
  · exact le_refl _

theorem stringify_wf (st : Store) (x : Ref) (hwf : st.WF) :
    (stringify_addresses st x).1.WF := by
  simp only [stringify_addresses]
  split
  · intro p hp
    simp only [Store.write, Store.alloc] at hp ⊢
    rcases List.mem_map.mp hp with ⟨q, hq, rfl⟩
    rcases List.mem_append.mp hq with hq1 | hq2
    · have hlt := hwf q hq1
      by_cases hqn : q.1 = st.next
      · rw [if_pos hqn]
        show st.next < st.next + 1
        exact Nat.lt_succ_self _
      · rw [if_neg hqn]
        exact Nat.lt_succ_of_lt hlt
    · simp only [List.mem_singleton] at hq2
      subst hq2
      simp only [if_pos rfl]
      show st.next < st.next + 1
      exact Nat.lt_succ_self _
  · exact hwf

theorem stringify_frame (st : Store) (x r : Ref) (hr : r < st.next) :
    (stringify_addresses st x).1.read r = st.read r := by
  simp only [stringify_addresses]
  split
  · rw [show (st.alloc (st.read x)).2 = st.next from rfl,
      Store.read_write_of_ne _ _ _ _ (Nat.ne_of_lt hr),
      Store.read_alloc_of_lt _ _ _ hr]
  · rfl

theorem fill_st_frame (resp : Option String) (st : Store) (g l r : Ref)
    (hwf : st.WF) (hr : r < st.next) :
    (openai_fill_field_st resp st g l).1.read r = st.read r ∧
      (openai_fill_field_st resp st g l).1.WF ∧
      st.next ≤ (openai_fill_field_st resp st g l).1.next := by
  unfold openai_fill_field_st
  have h1r := stringify_frame st g r hr
  have h1w := stringify_wf st g hwf
  have h1n := stringify_next_le st g
  have hr1 : r < (stringify_addresses st g).1.next := lt_of_lt_of_le hr h1n
  have h2r := stringify_frame (stringify_addresses st g).1 l r hr1
  have h2w := stringify_wf (stringify_addresses st g).1 l h1w
  have h2n := stringify_next_le (stringify_addresses st g).1 l
  exact ⟨by rw [h2r, h1r], h2w, le_trans h1n h2n⟩

theorem fuseValue_st_store (o : Oracle) (g l : Ref) (st : Store) (field : String) :
    (fuseValue_st o g l st field).1 = st ∨
      (fuseValue_st o g l st field).1 =
        (openai_fill_field_st (o.fill field) st g l).1 := by
  simp only [fuseValue_st]
  split
  · split
    · split
      · left
        rfl
      · right
        rfl
    · right
      rfl
  · split
    · left
      rfl
    · split
      · left
        rfl
      · right
        rfl

theorem fuseValue_st_frame (o : Oracle) (g l : Ref) (st : Store) (field : String)
    (r : Ref) (hwf : st.WF) (hr : r < st.next) :
    (fuseValue_st o g l st field).1.read r = st.read r ∧
      (fuseValue_st o g l st field).1.WF ∧
      st.next ≤ (fuseValue_st o g l st field).1.next := by
  rcases fuseValue_st_store o g l st field with h | h
  · rw [h]
    exact ⟨rfl, hwf, le_refl _⟩
  · rw [h]
    exact fill_st_frame (o.fill field) st g l r hwf hr

theorem fuseStep_st_eq (o : Oracle) (g l : Ref) (st : Store) (res : Record)
    (field : String) :
    fuseStep_st o g l (st, res) field =
      if pylower field = "country" then (st, res)
      else ((fuseValue_st o g l st field).1,
        dinsert res field (fuseValue_st o g l st field).2) := rfl

theorem foldl_fuseStep_st_frame (o : Oracle) (g l r : Ref) (fields : List String) :
    ∀ (st : Store) (res : Record), st.WF → r < st.next →
      (fields.foldl (fuseStep_st o g l) (st, res)).1.read r = st.read r ∧
        (fields.foldl (fuseStep_st o g l) (st, res)).1.WF ∧
        st.next ≤ (fields.foldl (fuseStep_st o g l) (st, res)).1.next := by
  induction fields with
  | nil =>
    intro st res hwf hr
    exact ⟨rfl, hwf, le_refl _⟩
  | cons f t ih =>
    intro st res hwf hr
    simp only [List.foldl_cons]
    rw [fuseStep_st_eq]
    by_cases hc : pylower f = "country"
    · rw [if_pos hc]
      exact ih st res hwf hr
    · rw [if_neg hc]
      have hfv := fuseValue_st_frame o g l st f r hwf hr
      have hrec := ih (fuseValue_st o g l st f).1
        (dinsert res f (fuseValue_st o g l st f).2) hfv.2.1
        (lt_of_lt_of_le hr hfv.2.2)
      exact ⟨by rw [hrec.1, hfv.1], hrec.2.1, le_trans hfv.2.2 hrec.2.2⟩

theorem analyze_st_frame (o : Oracle) (st : Store) (g l : Ref)
    (hwf : st.WF) (hg : g < st.next) (hl : l < st.next) :
    (analyze_company_data_st o st g l).1.read g = st.read g ∧
      (analyze_company_data_st o st g l).1.read l = st.read l := by
  unfold analyze_company_data_st
  simp only
  have hloop := foldl_fuseStep_st_frame o g l g
    ((keys (st.read g) ++ keys (st.read l)).dedup) st [] hwf hg
  have hloopl := foldl_fuseStep_st_frame o g l l
    ((keys (st.read g) ++ keys (st.read l)).dedup) st [] hwf hl
  have hfg := fill_st_frame (o.fill "country")
    (((keys (st.read g) ++ keys (st.read l)).dedup).foldl (fuseStep_st o g l) (st, [])).1
    g l g hloop.2.1 (lt_of_lt_of_le hg hloop.2.2)
  have hfl := fill_st_frame (o.fill "country")
    (((keys (st.read g) ++ keys (st.read l)).dedup).foldl (fuseStep_st o g l) (st, [])).1
    g l l hloopl.2.1 (lt_of_lt_of_le hl hloopl.2.2)
  constructor
  · rw [hfg.1, hloop.1]
  · rw [hfl.1, hloopl.1]

/-! ### Claim theorems -/

/-- C1: evaluation of the Validity Predicate at the spec's six field-specific
test values.  The code classifies all six strings as invalid — including
`"valid@x.com"`, `"555-1234"` and `"https://example.com"`, which the claim
says are valid — because `missing_phrases` contains the empty string and the
generic sentinel check is substring containment, which every string passes. -/
theorem C1_validity_predicate_eval :
    is_missing_or_incorrect (Val.str "notanemail") "Email" = true ∧
    is_missing_or_incorrect (Val.str "valid@x.com") "Email" = true ∧
    is_missing_or_incorrect (Val.str "555-1234") "Phone" = true ∧
    is_missing_or_incorrect (Val.str "abcdef") "Phone" = true ∧
    is_missing_or_incorrect (Val.str "example.com") "Website" = true ∧
    is_missing_or_incorrect (Val.str "https://example.com") "Website" = true := by
  decide

/-- C2: at the spec's fusion-precedence example both websites are classified
invalid (the empty-string sentinel bug), so the engine never takes source A's
value and instead stores the generative fill — `"Unknown"` under a failing
service — rather than `"https://acme.com"`. -/
theorem C2_fusion_precedence_eval :
    alookup (analyze_company_data oracleFail
        [("Website", Val.str "https://acme.com")]
        [("Website", Val.str "https://acme.net")]) "Website"
      = some (Val.str "Unknown") ∧
    alookup (analyze_company_data oracleFail
        [("Website", Val.str "https://acme.com")]
        [("Website", Val.str "https://acme.net")]) "Website"
      ≠ some (Val.str "https://acme.com") := by
  decide

/-- C3 counterexample: with two empty input records the fused record does not
contain the recognized field `description` at all, and its `country` field
holds `"Unknown"` — which is exactly one of the code's own missing phrases —
refuting both the "every recognized field is present" and the "no sentinel
value" parts of the claim. -/
theorem C3_counterexample :
    alookup (analyze_company_data oracleFail [] []) "description" = Option.none ∧
    alookup (analyze_company_data oracleFail [] []) "country" =
      some (Val.str "Unknown") ∧
    pyupper (pystrip "Unknown") ∈ missing_phrases := by
  decide

/-- C3 (amended): every field of the fused record that holds a string holds a
non-empty string; fields absent from both inputs (other than `country` and
`industry_type`) are simply absent from the fused record, and the stored
value may be the sentinel `"Unknown"` when the generative service fails. -/
theorem C3_amended_fused_strings_nonempty :
    (∀ (o : Oracle) (a b : Record) (k s : String),
        alookup (analyze_company_data o a b) k = some (Val.str s) → s ≠ "") ∧
    (∀ o : Oracle, keys (analyze_company_data o [] []) =
      ["country", "industry_type"]) := by
  refine ⟨?_, fun _ => rfl⟩
  intro o a b k s h
  rw [analyze_lookup] at h
  by_cases h1 : k = "industry_type"
  · rw [if_pos h1] at h
    injection h with h2
    injection h2 with h3
    rw [← h3]
    exact openai_select_industry_ne_empty _
  · rw [if_neg h1] at h
    by_cases h2 : k = "country"
    · rw [if_pos h2] at h
      injection h with h3
      injection h3 with h4
      rw [← h4]
      exact openai_fill_field_ne_empty _
    · rw [if_neg h2] at h
      by_cases h3 : (k ∈ keys a ∨ k ∈ keys b) ∧ pylower k ≠ "country"
      · rw [if_pos h3] at h
        injection h with h4
        exact fuseValue_str_ne_empty o a b k s h4
      · rw [if_neg h3] at h
        exact absurd h (by simp)

theorem C3_amended_fused_strings_nonempty_witness :
    alookup (analyze_company_data oracleFail [] []) "country" =
        some (Val.str "Unknown") ∧
      "Unknown" ≠ "" :=
  ⟨by decide,
    C3_amended_fused_strings_nonempty.1 oracleFail [] [] "country" "Unknown" (by decide)⟩

/-- C4: for every behaviour of the generative service and every pair of input
records, the fused `country` is exactly the generative fill for the country
prompt; raw-record country values are never consulted (keys whose lower-cased
form is `country` are skipped by the fusion loop). -/
theorem C4_country_always_generative (o : Oracle) (a b : Record) :
    alookup (analyze_company_data o a b) "country" =
      some (Val.str (openai_fill_field (o.fill "country"))) := by
  rw [analyze_lookup, if_neg (by decide : ¬("country" : String) = "industry_type"),
    if_pos rfl]

/-- C5: the fused `industry_type` is always the industry classifier's result;
the classifier's result is always a member of the fixed 21-entry vocabulary;
a trimmed response that is an exact case-sensitive member is returned as-is,
any other response and any service failure yield `"General"`. -/
theorem C5_industry_membership :
    (∀ (o : Oracle) (a b : Record),
        alookup (analyze_company_data o a b) "industry_type" =
          some (Val.str (openai_select_industry o.industry))) ∧
    (∀ r : Option String, openai_select_industry r ∈ INDUSTRY_TYPES) ∧
    INDUSTRY_TYPES.length = 21 ∧
    openai_select_industry Option.none = "General" ∧
    (∀ s : String, openai_select_industry (some s) =
      if pystrip s ∈ INDUSTRY_TYPES then pystrip s else "General") := by
  refine ⟨?_, openai_select_industry_mem, by decide, rfl, fun _ => rfl⟩
  intro o a b
  rw [analyze_lookup, if_pos rfl]

/-- C6 counterexample: on service failure the Generative Fallback Adapter
returns `"Unknown"`, which is a sentinel value — it is literally in the
spec's fixed sentinel set and matches the code's own `missing_phrases`
exactly — so "never a sentinel" is false. -/
theorem C6_counterexample :
    openai_fill_field Option.none = "Unknown" ∧
    "Unknown" ∈ ["N/A", "Not Found", "No Information Found", "Unknown", ""] ∧
    pyupper (pystrip "Unknown") ∈ missing_phrases := by
  decide

/-- C6 (amended): the adapter never returns the empty string; on any service
failure it returns the fixed string `"Unknown"` (itself a sentinel), and on
success it returns the trimmed response — which may also be a sentinel —
substituting `"Unknown"` when the trimmed response is empty. -/
theorem C6_amended_fill_contract :
    (∀ r : Option String, openai_fill_field r ≠ "") ∧
    openai_fill_field Option.none = "Unknown" ∧
    (∀ s : String, openai_fill_field (some s) =
      if pystrip s = "" then "Unknown" else pystrip s) :=
  ⟨openai_fill_field_ne_empty, rfl, fun _ => rfl⟩

/-- C7 counterexample: a list input whose only member is a blank string is
kept by the source combiner (the truthiness filter runs before stripping), so
the code returns `some ""` — the empty string the claim says is never
returned — where the reference definition returns `None`. -/
theorem C7_counterexample :
    combine_multiple_values (Val.vlist [" "]) (Val.str "") = some "" ∧
    combine_spec (Val.vlist [" "]) (Val.str "") = Option.none := by
  decide

/-- C7 (amended): the source combiner agrees with the reference definition on
every pair of inputs in which no list member is a non-empty string of
whitespace (on such members the code keeps the stripped-to-empty part and can
return `some ""`); the claim's concrete example holds as stated. -/
theorem C7_amended_combiner_matches_reference :
    (∀ a b : Val, noBlankMembers a = true → noBlankMembers b = true →
        combine_multiple_values a b = combine_spec a b) ∧
    combine_multiple_values (Val.vlist ["123 Main St", "456 Oak Ave"])
        (Val.str "123 Main St; 789 Pine Rd") =
      some "123 Main St; 456 Oak Ave; 789 Pine Rd" := by
  constructor
  · intro a b ha hb
    simp only [combine_multiple_values, combine_spec]
    rw [split_values_eq_spec a ha, split_values_eq_spec b hb, dedup_foldl_eq]
  · decide

theorem C7_amended_combiner_matches_reference_witness :
    (noBlankMembers (Val.vlist ["123 Main St", "456 Oak Ave"]) = true ∧
      noBlankMembers (Val.str "123 Main St; 789 Pine Rd") = true) ∧
    combine_multiple_values (Val.vlist ["123 Main St", "456 Oak Ave"])
        (Val.str "123 Main St; 789 Pine Rd") =
      combine_spec (Val.vlist ["123 Main St", "456 Oak Ave"])
        (Val.str "123 Main St; 789 Pine Rd") :=
  ⟨⟨by decide, by decide⟩,
    C7_amended_combiner_matches_reference.1
      (Val.vlist ["123 Main St", "456 Oak Ave"])
      (Val.str "123 Main St; 789 Pine Rd") (by decide) (by decide)⟩

/-- C8: running the engine over the heap of dictionary objects leaves both
input dictionaries exactly as they were — the only in-place writes in the
call graph target the fresh copy made by `stringify_addresses`, never the
inputs. -/
theorem C8_inputs_not_mutated (o : Oracle) (st : Store) (g l : Ref)
    (hwf : st.WF) (hg : g < st.next) (hl : l < st.next) :
    (analyze_company_data_st o st g l).1.read g = st.read g ∧
      (analyze_company_data_st o st g l).1.read l = st.read l :=
  analyze_st_frame o st g l hwf hg hl

theorem C8_inputs_not_mutated_witness :
    (store0.WF ∧ 0 < store0.next ∧ 1 < store0.next) ∧
    ((analyze_company_data_st oracleFail store0 0 1).1.read 0 = store0.read 0 ∧
      (analyze_company_data_st oracleFail store0 0 1).1.read 1 = store0.read 1) :=
  ⟨⟨by decide, by decide, by decide⟩,
    C8_inputs_not_mutated oracleFail store0 0 1 (by decide) (by decide) (by decide)⟩

/-- C9: the fused record's key set is the union of the input key sets minus
every key whose lower-cased form is `country`, plus `country` and
`industry_type`; with two empty inputs the result holds exactly those two
keys. -/
theorem C9_result_key_set :
    (∀ (o : Oracle) (a b : Record) (k : String),
        k ∈ keys (analyze_company_data o a b) ↔
          ((k ∈ keys a ∨ k ∈ keys b) ∧ pylower k ≠ "country") ∨
            k = "country" ∨ k = "industry_type") ∧
    (∀ o : Oracle, keys (analyze_company_data o [] []) =
      ["country", "industry_type"]) :=
  ⟨analyze_keys_mem, fun _ => rfl⟩

/-- C10: combining a value with itself equals combining it with `None` — the
second copy contributes only duplicate parts, which the first-seen
deduplication drops. -/
theorem C10_combine_self (v : Val) :
    combine_multiple_values v v = combine_multiple_values v Val.none := by
  simp only [combine_multiple_values]
  rw [show split_values Val.none = [] from rfl, List.append_nil, List.foldl_append]
  rw [dedup_foldl_noop _ _ (fun x hx => dedup_foldl_mem _ _ _ hx)]
